import Mathlib

/-
Verification of the Fe-H2O Pourbaix diagram script (src/app.py).

The core computation of the script is pure, closed-form rational
arithmetic over a 2-D (pH, potential) grid:
  * constants F, R, G_H2O and a table Gf of standard Gibbs energies,
  * the thermal factor S = R * T * ln(10) / F,
  * per-species stability potentials (function calc_psi), vectorized
    elementwise over the grid, so they are embedded here as pointwise
    functions of the rational coordinates PH and E,
  * an argmin across the six stacked per-species fields (np.argmin,
    which resolves ties to the lowest index), giving phase_map,
  * a 0/1 precipitation mask from membership of the phase_map index in
    the indices of the two solid species of the selected phase family.

Floating-point values are modelled as exact rationals.  The single
transcendental quantity np.log(10) is kept as an explicit rational
parameter named ln10 of every definition that depends on it; no claim
below depends on its exact value, only (for strictness claims) on its
positivity, which holds for the real ln(10) = 2.302585... and for its
double-precision value.
-/

namespace Pourbaix

/-- Faraday constant as in the script, F = 96485.3. -/
def F : ℚ := 96485.3

/-- Gas constant as in the script, R = 8.31446. -/
def R : ℚ := 8.31446

/-- Absolute temperature from the Celsius input, T = 273.15 + temp_c. -/
def T (temp_c : ℚ) : ℚ := 273.15 + temp_c

/-- Thermal factor S = R * T * ln(10) / F, with ln(10) abstracted as the
rational parameter ln10. -/
def S (ln10 temp_c : ℚ) : ℚ := R * T temp_c * ln10 / F

/-- Standard Gibbs energy of formation of water, G_H2O = -237130 J/mol. -/
def G_H2O : ℚ := -237130

/-- The scalar inputs read from the sidebar: temperature in Celsius, the
two log10 activities, and the phase-type radio selection (one of the two
strings used by the script). -/
structure Params where
  temp_c : ℚ
  log_a_fe2 : ℚ
  log_a_fe3 : ℚ
  phase_type : String

/-- The radio-button string selecting the oxide family. -/
def oxidesOnly : String := "Oxides only"

/-- The radio-button string selecting the hydroxide family. -/
def hydroxidesOnly : String := "Hydroxides only"

/-- Species dictionary keys, as the string keys of the script. -/
def keyFe : String := "Fe"

/-- Key of the Fe2+ ion. -/
def keyFe2 : String := "Fe2+"

/-- Key of the Fe3+ ion. -/
def keyFe3 : String := "Fe3+"

/-- Key of the Fe(OH)2 solid. -/
def keyFeOH2 : String := "Fe(OH)2"

/-- Key of the Fe(OH)3 solid. -/
def keyFeOH3 : String := "Fe(OH)3"

/-- Key of the Fe3O4 solid. -/
def keyFe3O4 : String := "Fe3O4"

/-- Key of the Fe2O3 solid. -/
def keyFe2O3 : String := "Fe2O3"

/-- Key of the HFeO2- ion. -/
def keyHFeO2 : String := "HFeO2-"

/-- The Gf dictionary of standard Gibbs energies of formation [J/mol]
from the script.  The script dictionary has exactly these eight keys and
is only ever read at them; the catch-all arm returning 0 is never hit. -/
def Gf : String → ℚ
  | "Fe" => 0.0
  | "Fe2+" => -78900
  | "Fe3+" => -4700
  | "Fe(OH)2" => -486500
  | "Fe(OH)3" => -696500
  | "Fe3O4" => -1015400
  | "Fe2O3" => -742200
  | "HFeO2-" => -379000
  | _ => 0

/-- Activity term act_fe2 = log_a_fe2 * S. -/
def act_fe2 (ln10 : ℚ) (p : Params) : ℚ := p.log_a_fe2 * S ln10 p.temp_c

/-- Activity term act_fe3 = log_a_fe3 * S. -/
def act_fe3 (ln10 : ℚ) (p : Params) : ℚ := p.log_a_fe3 * S ln10 p.temp_c

/-- Grid resolution of the script, res = 600. -/
def res : ℕ := 600

/-- np.linspace(a, b, n): n evenly spaced samples from a to b. -/
def linspace (a b : ℚ) (n : ℕ) : List ℚ :=
  (List.range n).map (fun i => a + (i : ℚ) * ((b - a) / ((n : ℚ) - 1)))

/-- The pH axis, ph_vec = np.linspace(0, 14, res). -/
def ph_vec : List ℚ := linspace 0 14 res

/-- The potential axis, e_vec = np.linspace(-2.5, 2.5, res). -/
def e_vec : List ℚ := linspace (-2.5) 2.5 res

/-- The dictionary built by calc_psi, embedded pointwise: at a grid point
with coordinates (PH, E), the association list of species keys to their
stability potentials.  The four always-present species are inserted
first; exactly one of the hydroxide pair or the oxide pair follows,
selected by the phase-type string exactly as in the script. -/
def calc_psi (ln10 : ℚ) (p : Params) (PH E : ℚ) : List (String × ℚ) :=
  [ (keyFe, Gf keyFe / F),
    (keyFe2, Gf keyFe2 / F + act_fe2 ln10 p - 2 * E),
    (keyFe3, Gf keyFe3 / F + act_fe3 ln10 p - 3 * E),
    (keyHFeO2, (Gf keyHFeO2 - 2 * G_H2O) / F - 2 * E
      - 3 * S ln10 p.temp_c * PH + act_fe2 ln10 p) ]
  ++ (if p.phase_type = hydroxidesOnly then
        [ (keyFeOH2, (Gf keyFeOH2 - 2 * G_H2O) / F - 2 * E
            - 2 * S ln10 p.temp_c * PH + act_fe2 ln10 p),
          (keyFeOH3, (Gf keyFeOH3 - 3 * G_H2O) / F - 3 * E
            - 3 * S ln10 p.temp_c * PH + act_fe3 ln10 p) ]
      else
        [ (keyFe3O4, ((Gf keyFe3O4 - 4 * G_H2O) / F - 8 * E
            - 8 * S ln10 p.temp_c * PH) / 3),
          (keyFe2O3, ((Gf keyFe2O3 - 3 * G_H2O) / F - 6 * E
            - 6 * S ln10 p.temp_c * PH) / 2) ])

/-- The ordered species universe psi_keys selected by the phase type. -/
def psi_keys (phase_type : String) : List String :=
  if phase_type = hydroxidesOnly then
    [keyFe, keyFe2, keyFe3, keyFeOH2, keyFeOH3, keyHFeO2]
  else
    [keyFe, keyFe2, keyFe3, keyFe3O4, keyFe2O3, keyHFeO2]

/-- Dictionary access Psi_dict[k]: the potential of species k at the
point (PH, E).  Every key of psi_keys is present in calc_psi, so the
default 0 of getD is never returned for the keys the script reads. -/
def psi_field (ln10 : ℚ) (p : Params) (PH E : ℚ) (k : String) : ℚ :=
  ((calc_psi ln10 p PH E).lookup k).getD 0

/-- Psi_stack at one grid point: the values of the six active fields in
psi_keys order (np.stack along the species axis, restricted to a cell). -/
def Psi_stack (ln10 : ℚ) (p : Params) (PH E : ℚ) : List ℚ :=
  (psi_keys p.phase_type).map (psi_field ln10 p PH E)

/-- Minimum of a list of rationals (0 on the empty list, which the
script never hits since the stack always has six entries). -/
def listMin : List ℚ → ℚ
  | [] => 0
  | [x] => x
  | x :: y :: ys => min x (listMin (y :: ys))

/-- np.argmin on one slice: index of the first occurrence of the minimum
value, i.e. ties resolve to the lowest index. -/
def argmin : List ℚ → ℕ
  | [] => 0
  | [_] => 0
  | x :: y :: ys => if x ≤ listMin (y :: ys) then 0 else argmin (y :: ys) + 1

/-- phase_map at one grid point: np.argmin over the species axis. -/
def phase_map (ln10 : ℚ) (p : Params) (PH E : ℚ) : ℕ :=
  argmin (Psi_stack ln10 p PH E)

/-- The two solid species designated as precipitation phases for the
selected phase family. -/
def precip_phases (phase_type : String) : List String :=
  if phase_type = hydroxidesOnly then [keyFeOH2, keyFeOH3]
  else [keyFe3O4, keyFe2O3]

/-- precip_indices: the comprehension
[psi_keys.index(p) for p in precip_phases if p in psi_keys]. -/
def precip_indices (phase_type : String) : List ℕ :=
  ((precip_phases phase_type).filter
      (fun q => (psi_keys phase_type).contains q)).map
    (fun q => (psi_keys phase_type).indexOf q)

/-- precip_mask at one grid point: np.isin(phase_map, precip_indices)
cast to an integer 0/1 value. -/
def precip_mask (ln10 : ℚ) (p : Params) (PH E : ℚ) : ℕ :=
  if phase_map ln10 p PH E ∈ precip_indices p.phase_type then 1 else 0

/-- The upper water-stability line of the plot, E = 1.229 - S * pH. -/
def water_line_O2 (ln10 : ℚ) (p : Params) (pH : ℚ) : ℚ :=
  1.229 - S ln10 p.temp_c * pH

/-- The lower water-stability line of the plot, E = 0.0 - S * pH. -/
def water_line_H2 (ln10 : ℚ) (p : Params) (pH : ℚ) : ℚ :=
  0.0 - S ln10 p.temp_c * pH

/-- The full phase_map array in meshgrid orientation: row r is the
potential sample e_vec[r], column c the pH sample ph_vec[c]. -/
def phase_map_grid (ln10 : ℚ) (p : Params) : List (List ℕ) :=
  e_vec.map (fun ev => ph_vec.map (fun ph => phase_map ln10 p ph ev))

/-- The full precip_mask array in the same orientation. -/
def precip_mask_grid (ln10 : ℚ) (p : Params) : List (List ℕ) :=
  e_vec.map (fun ev => ph_vec.map (fun ph => precip_mask ln10 p ph ev))

/-- The arrays handed to the rendering layer. -/
structure Output where
  phase_map_grid : List (List ℕ)
  precip_mask_grid : List (List ℕ)

/-- The whole evaluate-then-classify run.  The script performs no input
validation and can raise no exception on any parameter record (all its
arithmetic is total); the result is wrapped in Except to make the
absence of any error path explicit. -/
def run (ln10 : ℚ) (p : Params) : Except String Output :=
  .ok ⟨phase_map_grid ln10 p, precip_mask_grid ln10 p⟩

/-! Generic facts about listMin and argmin (the embedding of np.argmin). -/

theorem listMin_le_getD (l : List ℚ) (j : ℕ) (h : j < l.length) :
    listMin l ≤ l.getD j 0 := by
  induction l generalizing j with
  | nil => simp at h
  | cons x xs ih =>
    cases xs with
    | nil =>
      cases j with
      | zero => simp [listMin]
      | succ j => simp at h
    | cons y ys =>
      cases j with
      | zero =>
        simp [listMin]
      | succ j =>
        have hj : j < (y :: ys).length := by simpa using h
        have := ih j hj
        calc listMin (x :: y :: ys) = min x (listMin (y :: ys)) := by
              simp [listMin]
          _ ≤ listMin (y :: ys) := min_le_right _ _
          _ ≤ (y :: ys).getD j 0 := this
          _ = (x :: y :: ys).getD (j + 1) 0 := by simp

theorem argmin_lt_length (l : List ℚ) (h : l ≠ []) : argmin l < l.length := by
  induction l with
  | nil => exact absurd rfl h
  | cons x xs ih =>
    cases xs with
    | nil => simp [argmin]
    | cons y ys =>
      by_cases hx : x ≤ listMin (y :: ys)
      · simp [argmin, hx]
      · have hlt := ih (by simp)
        simp only [List.length_cons] at hlt ⊢
        simp only [argmin, if_neg hx]
        omega

theorem getD_argmin_eq_listMin (l : List ℚ) (h : l ≠ []) :
    l.getD (argmin l) 0 = listMin l := by
  induction l with
  | nil => exact absurd rfl h
  | cons x xs ih =>
    cases xs with
    | nil => simp [argmin, listMin]
    | cons y ys =>
      by_cases hx : x ≤ listMin (y :: ys)
      · simp [argmin, listMin, if_pos hx, min_eq_left hx]
      · have hrec := ih (by simp)
        have hxgt : listMin (y :: ys) < x := lt_of_not_ge hx
        simp only [argmin, if_neg hx, listMin, List.getD_cons_succ]
        rw [hrec, min_eq_right (le_of_lt hxgt)]

theorem argmin_le_getD (l : List ℚ) (j : ℕ) (h : j < l.length) :
    l.getD (argmin l) 0 ≤ l.getD j 0 := by
  have hne : l ≠ [] := by
    intro e
    rw [e] at h
    simp at h
  rw [getD_argmin_eq_listMin l hne]
  exact listMin_le_getD l j h

theorem lt_getD_of_lt_argmin (l : List ℚ) (j : ℕ) (h : j < argmin l) :
    l.getD (argmin l) 0 < l.getD j 0 := by
  induction l generalizing j with
  | nil => simp [argmin] at h
  | cons x xs ih =>
    cases xs with
    | nil => simp [argmin] at h
    | cons y ys =>
      by_cases hx : x ≤ listMin (y :: ys)
      · rw [argmin, if_pos hx] at h
        simp at h
      · have hxgt : listMin (y :: ys) < x := lt_of_not_ge hx
        have hmin : (y :: ys).getD (argmin (y :: ys)) 0 = listMin (y :: ys) :=
          getD_argmin_eq_listMin (y :: ys) (by simp)
        rw [argmin, if_neg hx] at h ⊢
        cases j with
        | zero =>
          rw [List.getD_cons_succ, List.getD_cons_zero, hmin]
          exact hxgt
        | succ j =>
          have hj : j < argmin (y :: ys) := by omega
          rw [List.getD_cons_succ, List.getD_cons_succ]
          exact ih j hj

/-! Facts about the species universe and the stacked fields. -/

theorem psi_keys_length (phase_type : String) : (psi_keys phase_type).length = 6 := by
  unfold psi_keys
  split <;> rfl

theorem Psi_stack_length (ln10 : ℚ) (p : Params) (PH E : ℚ) :
    (Psi_stack ln10 p PH E).length = 6 := by
  simp [Psi_stack, psi_keys_length]

theorem phase_map_lt_six (ln10 : ℚ) (p : Params) (PH E : ℚ) :
    phase_map ln10 p PH E < 6 := by
  have hne : Psi_stack ln10 p PH E ≠ [] := by
    intro e
    have := Psi_stack_length ln10 p PH E
    rw [e] at this
    simp at this
  have h := argmin_lt_length (Psi_stack ln10 p PH E) hne
  rwa [Psi_stack_length] at h

/-- Closed form of the Fe2+ field: the dictionary lookup reduces to the
formula of the script, independently of the selected phase family. -/
theorem psi_field_Fe2_eq (ln10 : ℚ) (p : Params) (PH E : ℚ) :
    psi_field ln10 p PH E keyFe2 = Gf keyFe2 / F + act_fe2 ln10 p - 2 * E := rfl

/-- Closed form of the HFeO2- field, independent of the phase family;
its activity term is act_fe2, exactly as in the script. -/
theorem psi_field_HFeO2_eq (ln10 : ℚ) (p : Params) (PH E : ℚ) :
    psi_field ln10 p PH E keyHFeO2 = (Gf keyHFeO2 - 2 * G_H2O) / F - 2 * E
      - 3 * S ln10 p.temp_c * PH + act_fe2 ln10 p := rfl

/-- Closed form of the Fe field. -/
theorem psi_field_Fe_eq (ln10 : ℚ) (p : Params) (PH E : ℚ) :
    psi_field ln10 p PH E keyFe = Gf keyFe / F := rfl

/-- Closed form of the Fe3+ field. -/
theorem psi_field_Fe3_eq (ln10 : ℚ) (p : Params) (PH E : ℚ) :
    psi_field ln10 p PH E keyFe3 = Gf keyFe3 / F + act_fe3 ln10 p - 3 * E := rfl

/-- For every phase-type string the precipitation index list evaluates
to the indices 3 and 4 of the six-element species universe. -/
theorem precip_indices_eq (phase_type : String) : precip_indices phase_type = [3, 4] := by
  by_cases hpt : phase_type = hydroxidesOnly
  · subst hpt
    decide
  · unfold precip_indices precip_phases psi_keys
    simp only [if_neg hpt]
    decide

theorem mem_precip_iff_solid (phase_type : String) (pm : ℕ) (h6 : pm < 6) :
    pm ∈ precip_indices phase_type ↔
      (psi_keys phase_type).getD pm "" ∈ precip_phases phase_type := by
  rw [precip_indices_eq]
  by_cases hpt : phase_type = hydroxidesOnly
  · subst hpt
    interval_cases pm <;> decide
  · unfold psi_keys precip_phases
    simp only [if_neg hpt]
    interval_cases pm <;> decide

theorem ite_one_zero_eq_one (c : Prop) [Decidable c] :
    ((if c then (1 : ℕ) else 0) = 1) ↔ c := by
  split <;> simp_all

/-- Pointwise characterization of the precipitation mask: it is 1 at a
point exactly when the species winning the argmin there is one of the
two solids of the selected phase family. -/
theorem precip_mask_iff (ln10 : ℚ) (p : Params) (PH E : ℚ) :
    precip_mask ln10 p PH E = 1 ↔
      (psi_keys p.phase_type).getD (phase_map ln10 p PH E) "" ∈
        precip_phases p.phase_type := by
  unfold precip_mask
  rw [ite_one_zero_eq_one]
  exact mem_precip_iff_solid p.phase_type _ (phase_map_lt_six ln10 p PH E)

/-- Positivity of the thermal factor for physically valid temperatures
and any positive stand-in for ln(10). -/
theorem S_pos (ln10 temp_c : ℚ) (hl : 0 < ln10) (ht : 0 ≤ temp_c) :
    0 < S ln10 temp_c := by
  have hT : 0 < T temp_c := by
    unfold T
    linarith
  have hR : (0 : ℚ) < R := by norm_num [R]
  have hF : (0 : ℚ) < F := by norm_num [F]
  exact div_pos (mul_pos (mul_pos hR hT) hl) hF

/-- Table value of the Gibbs energy of Fe. -/
theorem Gf_Fe : Gf keyFe = 0.0 := rfl

/-- Table value of the Gibbs energy of Fe2+. -/
theorem Gf_Fe2 : Gf keyFe2 = -78900 := rfl

/-- Table value of the Gibbs energy of Fe3+. -/
theorem Gf_Fe3 : Gf keyFe3 = -4700 := rfl

/-- Table value of the Gibbs energy of Fe3O4. -/
theorem Gf_Fe3O4 : Gf keyFe3O4 = -1015400 := rfl

/-- Table value of the Gibbs energy of Fe2O3. -/
theorem Gf_Fe2O3 : Gf keyFe2O3 = -742200 := rfl

/-- Table value of the Gibbs energy of HFeO2-. -/
theorem Gf_HFeO2 : Gf keyHFeO2 = -379000 := rfl

/-- In the oxide branch the stacked fields are exactly the six closed
forms of the script, in psi_keys order. -/
theorem Psi_stack_oxides (ln10 : ℚ) (p : Params) (PH E : ℚ)
    (hpt : ¬ p.phase_type = hydroxidesOnly) :
    Psi_stack ln10 p PH E =
      [Gf keyFe / F,
       Gf keyFe2 / F + act_fe2 ln10 p - 2 * E,
       Gf keyFe3 / F + act_fe3 ln10 p - 3 * E,
       ((Gf keyFe3O4 - 4 * G_H2O) / F - 8 * E - 8 * S ln10 p.temp_c * PH) / 3,
       ((Gf keyFe2O3 - 3 * G_H2O) / F - 6 * E - 6 * S ln10 p.temp_c * PH) / 2,
       (Gf keyHFeO2 - 2 * G_H2O) / F - 2 * E - 3 * S ln10 p.temp_c * PH
         + act_fe2 ln10 p] := by
  unfold Psi_stack psi_keys
  rw [if_neg hpt]
  simp only [List.map]
  unfold psi_field calc_psi
  simp only [if_neg hpt]
  rfl

/-! The claims. -/

/-- Claim C1: for every parameter record and every grid cell, the
phase_map value is a valid index into the active six-element species
universe, i.e. 0 <= phase_map < 6. -/
theorem phase_map_values_in_range (ln10 : ℚ) (p : Params) (r c : ℕ)
    (_hr : r < res) (_hc : c < res) :
    0 ≤ phase_map ln10 p (ph_vec.getD c 0) (e_vec.getD r 0) ∧
      phase_map ln10 p (ph_vec.getD c 0) (e_vec.getD r 0) < 6 :=
  ⟨Nat.zero_le _, phase_map_lt_six ln10 p _ _⟩

/-- Witness for C1 at the grid cell (0, 0). -/
theorem phase_map_values_in_range_witness :
    (0 < res ∧ 0 < res) ∧
      (0 ≤ phase_map 1 ⟨25, -6, -6, oxidesOnly⟩ (ph_vec.getD 0 0) (e_vec.getD 0 0) ∧
        phase_map 1 ⟨25, -6, -6, oxidesOnly⟩ (ph_vec.getD 0 0) (e_vec.getD 0 0) < 6) :=
  ⟨⟨by decide, by decide⟩,
    phase_map_values_in_range 1 ⟨25, -6, -6, oxidesOnly⟩ 0 0 (by decide) (by decide)⟩

/-- Claim C2: at every grid cell the precipitation mask is 1 exactly
when the species selected by phase_map is one of the two solids of the
active phase family (Fe3O4/Fe2O3 for oxides, Fe(OH)2/Fe(OH)3 for
hydroxides), with no approximation. -/
theorem precip_mask_matches_solid_species (ln10 : ℚ) (p : Params) (r c : ℕ)
    (_hr : r < res) (_hc : c < res) :
    precip_mask ln10 p (ph_vec.getD c 0) (e_vec.getD r 0) = 1 ↔
      (psi_keys p.phase_type).getD
          (phase_map ln10 p (ph_vec.getD c 0) (e_vec.getD r 0)) "" ∈
        precip_phases p.phase_type :=
  precip_mask_iff ln10 p _ _

/-- Witness for C2 at the grid cell (0, 0). -/
theorem precip_mask_matches_solid_species_witness :
    (0 < res ∧ 0 < res) ∧
      (precip_mask 1 ⟨25, -6, -6, hydroxidesOnly⟩ (ph_vec.getD 0 0) (e_vec.getD 0 0) = 1 ↔
        (psi_keys hydroxidesOnly).getD
            (phase_map 1 ⟨25, -6, -6, hydroxidesOnly⟩ (ph_vec.getD 0 0) (e_vec.getD 0 0)) "" ∈
          precip_phases hydroxidesOnly) :=
  ⟨⟨by decide, by decide⟩,
    precip_mask_matches_solid_species 1 ⟨25, -6, -6, hydroxidesOnly⟩ 0 0
      (by decide) (by decide)⟩

/-- Counterexample to claim C3: at temperature -300 Celsius, well below
absolute zero, the computation runs to completion and returns a success
value; no InvalidParameter error is reported before the evaluator runs. -/
theorem no_invalid_temp_error_cex :
    ((-300 : ℚ) ≤ -273.15) ∧ (run 1 ⟨-300, -6, -6, oxidesOnly⟩).isOk = true :=
  ⟨by norm_num, rfl⟩

/-- Amended C3: the script performs no temperature validation at all and
has no error path: the run succeeds for every parameter record,
including any temperature at or below absolute zero.  (No NaN can arise
from S = R * T * ln10 / F, which involves no division by T; the UI
slider separately restricts the temperature input to 0..100 Celsius.) -/
theorem run_never_errors (ln10 : ℚ) (p : Params) : (run ln10 p).isOk = true := rfl

/-- Claim C4: switching the phase family from oxides to hydroxides with
all other parameters fixed changes only the last three entries of the
species universe (the first three entries and the length agree) and
leaves the Fe, Fe2+, Fe3+ and HFeO2- fields numerically unchanged at
every point. -/
theorem phase_switch_frame_effect (ln10 t la2 la3 PH E : ℚ) :
    (psi_keys oxidesOnly).take 3 = (psi_keys hydroxidesOnly).take 3 ∧
    (psi_keys oxidesOnly).length = (psi_keys hydroxidesOnly).length ∧
    psi_field ln10 ⟨t, la2, la3, oxidesOnly⟩ PH E keyFe =
      psi_field ln10 ⟨t, la2, la3, hydroxidesOnly⟩ PH E keyFe ∧
    psi_field ln10 ⟨t, la2, la3, oxidesOnly⟩ PH E keyFe2 =
      psi_field ln10 ⟨t, la2, la3, hydroxidesOnly⟩ PH E keyFe2 ∧
    psi_field ln10 ⟨t, la2, la3, oxidesOnly⟩ PH E keyFe3 =
      psi_field ln10 ⟨t, la2, la3, hydroxidesOnly⟩ PH E keyFe3 ∧
    psi_field ln10 ⟨t, la2, la3, oxidesOnly⟩ PH E keyHFeO2 =
      psi_field ln10 ⟨t, la2, la3, hydroxidesOnly⟩ PH E keyHFeO2 :=
  ⟨by decide, by decide, rfl, rfl, rfl, rfl⟩

/-- Claim C5: if two parameter records differ only in the Fe2+
log-activity, the second larger by d > 0, then at every point the Fe2+
field of the second is strictly greater, and the difference is exactly
d * S.  Physical validity of the inputs enters as 0 <= temp_c (the
slider range is 0..100) and 0 < ln10 (true of ln 10). -/
theorem fe2_field_monotone_in_activity (ln10 d PH E : ℚ) (p1 p2 : Params)
    (hl : 0 < ln10) (ht : 0 ≤ p1.temp_c)
    (htemp : p2.temp_c = p1.temp_c)
    (ha2 : p2.log_a_fe2 = p1.log_a_fe2 + d)
    (_ha3 : p2.log_a_fe3 = p1.log_a_fe3)
    (_hpt : p2.phase_type = p1.phase_type)
    (hd : 0 < d) :
    psi_field ln10 p2 PH E keyFe2 =
      psi_field ln10 p1 PH E keyFe2 + d * S ln10 p1.temp_c ∧
    psi_field ln10 p1 PH E keyFe2 < psi_field ln10 p2 PH E keyFe2 := by
  have hS : 0 < S ln10 p1.temp_c := S_pos ln10 p1.temp_c hl ht
  rw [psi_field_Fe2_eq, psi_field_Fe2_eq]
  unfold act_fe2
  rw [ha2, htemp]
  constructor
  · ring
  · nlinarith [mul_pos hd hS]

/-- Witness for C5 with d = 1 at temp_c = 25 and the point (7, 0). -/
theorem fe2_field_monotone_in_activity_witness :
    psi_field 1 ⟨25, -5, -6, oxidesOnly⟩ 7 0 keyFe2 =
      psi_field 1 ⟨25, -6, -6, oxidesOnly⟩ 7 0 keyFe2 + 1 * S 1 25 ∧
    psi_field 1 ⟨25, -6, -6, oxidesOnly⟩ 7 0 keyFe2 <
      psi_field 1 ⟨25, -5, -6, oxidesOnly⟩ 7 0 keyFe2 :=
  fe2_field_monotone_in_activity 1 1 7 0 ⟨25, -6, -6, oxidesOnly⟩
    ⟨25, -5, -6, oxidesOnly⟩ (by norm_num) (by norm_num) (by norm_num)
    (by norm_num) (by norm_num) (by norm_num) (by norm_num)

/-- Claim C6: with temp_c = 25, both log-activities -6 and the oxide
family, the species universe is Fe, Fe2+, Fe3+, Fe3O4, Fe2O3, HFeO2-;
at the point (pH = 2, E = -1) the Fe2+ field equals
-78900 / 96485.3 + (-6) * S - 2 * (-1); and the phase_map value there
attains the minimum over all six stacked fields. -/
theorem end_to_end_scenario_oxides (ln10 : ℚ) :
    psi_keys oxidesOnly = [keyFe, keyFe2, keyFe3, keyFe3O4, keyFe2O3, keyHFeO2] ∧
    psi_field ln10 ⟨25, -6, -6, oxidesOnly⟩ 2 (-1) keyFe2 =
      -78900 / 96485.3 + (-6.0) * S ln10 25 - 2 * (-1) ∧
    ∀ j, j < 6 →
      (Psi_stack ln10 ⟨25, -6, -6, oxidesOnly⟩ 2 (-1)).getD
          (phase_map ln10 ⟨25, -6, -6, oxidesOnly⟩ 2 (-1)) 0 ≤
        (Psi_stack ln10 ⟨25, -6, -6, oxidesOnly⟩ 2 (-1)).getD j 0 := by
  refine ⟨by decide, ?_, ?_⟩
  · rw [psi_field_Fe2_eq, Gf_Fe2]
    unfold act_fe2 F
    norm_num
  · intro j hj
    have hlen := Psi_stack_length ln10 ⟨25, -6, -6, oxidesOnly⟩ 2 (-1)
    exact argmin_le_getD _ j (by rw [hlen]; exact hj)

/-- Witness for C6, reading off the argmin inequality at index 0. -/
theorem end_to_end_scenario_oxides_witness :
    (0 : ℕ) < 6 ∧
      (Psi_stack 1 ⟨25, -6, -6, oxidesOnly⟩ 2 (-1)).getD
          (phase_map 1 ⟨25, -6, -6, oxidesOnly⟩ 2 (-1)) 0 ≤
        (Psi_stack 1 ⟨25, -6, -6, oxidesOnly⟩ 2 (-1)).getD 0 0 :=
  ⟨by decide, (end_to_end_scenario_oxides 1).2.2 0 (by decide)⟩

/-- Claim C7: classification is total (the embedding is a total
function) and ties are resolved deterministically to the lowest index:
at every point the phase_map value attains the minimum of the stacked
fields, and every strictly smaller index carries a strictly larger
field value, so among tied minimizers the least index wins. -/
theorem tie_break_lowest_index (ln10 : ℚ) (p : Params) (PH E : ℚ) :
    (∀ j, j < 6 →
      (Psi_stack ln10 p PH E).getD (phase_map ln10 p PH E) 0 ≤
        (Psi_stack ln10 p PH E).getD j 0) ∧
    (∀ j, j < phase_map ln10 p PH E →
      (Psi_stack ln10 p PH E).getD (phase_map ln10 p PH E) 0 <
        (Psi_stack ln10 p PH E).getD j 0) := by
  constructor
  · intro j hj
    exact argmin_le_getD _ j (by rw [Psi_stack_length]; exact hj)
  · intro j hj
    exact lt_getD_of_lt_argmin _ j hj

/-- Witness for C7: the first part at a point where the argmin is 0, the
second at a point where the argmin is positive (Fe2+ wins at ln10 = 0,
so index 0 is strictly beaten). -/
theorem tie_break_lowest_index_witness :
    ((0 : ℕ) < 6 ∧
      (Psi_stack 1 ⟨25, -6, -6, oxidesOnly⟩ 2 (-1)).getD
          (phase_map 1 ⟨25, -6, -6, oxidesOnly⟩ 2 (-1)) 0 ≤
        (Psi_stack 1 ⟨25, -6, -6, oxidesOnly⟩ 2 (-1)).getD 0 0) ∧
    (0 < phase_map 0 ⟨0, 0, 0, oxidesOnly⟩ 0 0 ∧
      (Psi_stack 0 ⟨0, 0, 0, oxidesOnly⟩ 0 0).getD
          (phase_map 0 ⟨0, 0, 0, oxidesOnly⟩ 0 0) 0 <
        (Psi_stack 0 ⟨0, 0, 0, oxidesOnly⟩ 0 0).getD 0 0) := by
  have hpos : 0 < phase_map 0 ⟨0, 0, 0, oxidesOnly⟩ 0 0 := by
    have hstack := Psi_stack_oxides 0 ⟨0, 0, 0, oxidesOnly⟩ 0 0 (by decide)
    rw [phase_map, hstack]
    norm_num [argmin, listMin, min_def, act_fe2, act_fe3, S, T, F, R, G_H2O,
      Gf_Fe, Gf_Fe2, Gf_Fe3, Gf_Fe3O4, Gf_Fe2O3, Gf_HFeO2]
  exact ⟨⟨by decide, (tie_break_lowest_index 1 ⟨25, -6, -6, oxidesOnly⟩ 2 (-1)).1 0 (by decide)⟩,
    ⟨hpos, (tie_break_lowest_index 0 ⟨0, 0, 0, oxidesOnly⟩ 0 0).2 0 hpos⟩⟩

/-- Claim C8: the evaluate-then-classify pipeline is deterministic: two
runs on equal parameter records (over the fixed grid) produce identical
phase_map and precip_mask arrays. -/
theorem pipeline_deterministic (ln10 : ℚ) (p1 p2 : Params) (h : p1 = p2) :
    phase_map_grid ln10 p1 = phase_map_grid ln10 p2 ∧
      precip_mask_grid ln10 p1 = precip_mask_grid ln10 p2 := by
  subst h
  exact ⟨rfl, rfl⟩

/-- Witness for C8 at a concrete parameter record. -/
theorem pipeline_deterministic_witness :
    phase_map_grid 1 ⟨25, -6, -6, oxidesOnly⟩ =
      phase_map_grid 1 ⟨25, -6, -6, oxidesOnly⟩ ∧
    precip_mask_grid 1 ⟨25, -6, -6, oxidesOnly⟩ =
      precip_mask_grid 1 ⟨25, -6, -6, oxidesOnly⟩ :=
  pipeline_deterministic 1 ⟨25, -6, -6, oxidesOnly⟩ ⟨25, -6, -6, oxidesOnly⟩ rfl

/-- Claim C9: the two water-stability reference lines are exactly
E = 1.229 - S * pH and E = 0 - S * pH, and they depend only on the
temperature parameter: any two parameter records with equal temperature
(any phase family, any activities) give identical lines. -/
theorem water_lines_temperature_only (ln10 pH : ℚ) (p q : Params) :
    water_line_O2 ln10 p pH = 1.229 - S ln10 p.temp_c * pH ∧
    water_line_H2 ln10 p pH = 0 - S ln10 p.temp_c * pH ∧
    (p.temp_c = q.temp_c →
      water_line_O2 ln10 p pH = water_line_O2 ln10 q pH ∧
        water_line_H2 ln10 p pH = water_line_H2 ln10 q pH) := by
  refine ⟨rfl, by norm_num [water_line_H2], fun h => ?_⟩
  unfold water_line_O2 water_line_H2
  rw [h]
  exact ⟨rfl, rfl⟩

/-- Witness for C9 across phase families and activity values. -/
theorem water_lines_temperature_only_witness :
    water_line_O2 1 ⟨25, -6, -6, oxidesOnly⟩ 7 =
      water_line_O2 1 ⟨25, -3, -1, hydroxidesOnly⟩ 7 ∧
    water_line_H2 1 ⟨25, -6, -6, oxidesOnly⟩ 7 =
      water_line_H2 1 ⟨25, -3, -1, hydroxidesOnly⟩ 7 :=
  (water_lines_temperature_only 1 7 ⟨25, -6, -6, oxidesOnly⟩
    ⟨25, -3, -1, hydroxidesOnly⟩).2.2 rfl

/-- Claim C10: the HFeO2- field carries the Fe2+ activity term:
raising the Fe2+ log-activity by d shifts the HFeO2- field by exactly
d * S (and the Fe2+ field likewise), while changing the Fe3+
log-activity alone leaves the HFeO2- field unchanged. -/
theorem hfeo2_uses_fe2_activity (ln10 d PH E : ℚ) (p : Params) :
    psi_field ln10 (Params.mk p.temp_c (p.log_a_fe2 + d) p.log_a_fe3 p.phase_type)
        PH E keyHFeO2 =
      psi_field ln10 p PH E keyHFeO2 + d * S ln10 p.temp_c ∧
    psi_field ln10 (Params.mk p.temp_c p.log_a_fe2 (p.log_a_fe3 + d) p.phase_type)
        PH E keyHFeO2 =
      psi_field ln10 p PH E keyHFeO2 ∧
    psi_field ln10 (Params.mk p.temp_c (p.log_a_fe2 + d) p.log_a_fe3 p.phase_type)
        PH E keyFe2 =
      psi_field ln10 p PH E keyFe2 + d * S ln10 p.temp_c := by
  refine ⟨?_, ?_, ?_⟩ <;>
    simp only [psi_field_HFeO2_eq, psi_field_Fe2_eq, act_fe2] <;>
    ring

end Pourbaix
